import Mathlib

/-!
Verification development for the `dd` garage-door bridge daemon.

The definitions below are shallow embeddings of the Go source:
machine integers become `Nat`/`Int`, byte slices become `List Nat`
(each element a byte value), fallible code returns `Option`/`Except`,
and the mutable fields of `Conn` are threaded as explicit state.
External standard-library crypto (AES, MD5, SHA-256) is abstracted as
a record of primitive functions (`CryptoPrims`), exactly the shape the
Go code consumes; everything the repository itself implements
(PKCS#5 padding, CBC chaining, the HMAC construction, base64 framing,
request signing, message dispatch, the FSM tables, the command catalog)
is translated directly.
-/

namespace DD

/-! ## Command catalog (api: AvailableCommands, from the availableCommands
source reproduced in the repository README and asserted by
api/availableCommands_test.go) -/

structure AvailableCommandsT where
  AuxOff : Int
  AuxOn : Int
  Close : Int
  Open : Int
  Stop : Int
  LightOn : Int
  LightOff : Int
  OpenPercent05 : Int
  OpenPercent10 : Int
  OpenPercent15 : Int
  OpenPercent20 : Int
  OpenPercent25 : Int
  OpenPercent30 : Int
  OpenPercent35 : Int
  OpenPercent40 : Int
  OpenPercent45 : Int
  OpenPercent50 : Int
  OpenPercent55 : Int
  OpenPercent60 : Int
  OpenPercent65 : Int
  OpenPercent70 : Int
  OpenPercent75 : Int
  OpenPercent80 : Int
  OpenPercent85 : Int
  OpenPercent90 : Int
  OpenPercent95 : Int
  PartOpen1 : Int
  PartOpen2 : Int
  PartOpen3 : Int
  PhoneLockoutOff : Int
  PhoneLockoutOn : Int
  RemoteControlLockoutOff : Int
  RemoteControlLockoutOn : Int
  CameraAudioAlarmDisable : Int
  CameraAudioAlarmEnable : Int
  CameraMotionAlarmDisable : Int
  CameraMotionAlarmEnable : Int
  DisableCycleTest : Int
  EnableCycleTest : Int
  deriving DecidableEq

def AvailableCommands : AvailableCommandsT :=
  { AuxOff := 19
    AuxOn := 18
    Close := 4
    Open := 2
    Stop := 3
    LightOn := 16
    LightOff := 17
    OpenPercent05 := 32
    OpenPercent10 := 33
    OpenPercent15 := 34
    OpenPercent20 := 35
    OpenPercent25 := 36
    OpenPercent30 := 37
    OpenPercent35 := 38
    OpenPercent40 := 39
    OpenPercent45 := 40
    OpenPercent50 := 41
    OpenPercent55 := 42
    OpenPercent60 := 43
    OpenPercent65 := 44
    OpenPercent70 := 45
    OpenPercent75 := 46
    OpenPercent80 := 47
    OpenPercent85 := 48
    OpenPercent90 := 49
    OpenPercent95 := 50
    PartOpen1 := 5
    PartOpen2 := 6
    PartOpen3 := 7
    PhoneLockoutOff := 257
    PhoneLockoutOn := 258
    RemoteControlLockoutOff := 21
    RemoteControlLockoutOn := 20
    CameraAudioAlarmDisable := 355
    CameraAudioAlarmEnable := 354
    CameraMotionAlarmDisable := 353
    CameraMotionAlarmEnable := 352
    DisableCycleTest := 322
    EnableCycleTest := 321 }

/-! ## api/devices.go: door command constants and position mapping -/

def CMD_OPEN : Int := 2
def CMD_CLOSE : Int := 4
def CMD_PET_OPEN : Int := 6
def CMD_PARCEL_OPEN : Int := 7

/-- Embedding of api/devices.go CommandForRatio. -/
def CommandForRatio (position : Int) : Int :=
  if position ≤ 0 then CMD_CLOSE
  else if position ≤ 20 then CMD_PET_OPEN
  else if position ≤ 68 then CMD_PARCEL_OPEN
  else CMD_OPEN

/-- The clamping prologue of api/devices.go GetCommandForPosition:
`if position < 0 { position = 0 }; if position > 100 { position = 100 }`. -/
def clampPos (position : Int) : Int :=
  if position < 0 then 0 else if position > 100 then 100 else position

/-- The switch cascade of api/devices.go GetCommandForPosition over the
clamped position. -/
def getCommandForClamped (p : Int) : Int :=
  if p = 0 then AvailableCommands.Close
  else if p ≤ 5 then AvailableCommands.OpenPercent05
  else if p ≤ 10 then AvailableCommands.OpenPercent10
  else if p ≤ 15 then AvailableCommands.OpenPercent15
  else if p ≤ 20 then AvailableCommands.OpenPercent20
  else if p ≤ 25 then AvailableCommands.OpenPercent25
  else if p ≤ 30 then AvailableCommands.OpenPercent30
  else if p ≤ 35 then AvailableCommands.OpenPercent35
  else if p ≤ 40 then AvailableCommands.OpenPercent40
  else if p ≤ 45 then AvailableCommands.OpenPercent45
  else if p ≤ 50 then AvailableCommands.OpenPercent50
  else if p ≤ 55 then AvailableCommands.OpenPercent55
  else if p ≤ 60 then AvailableCommands.OpenPercent60
  else if p ≤ 65 then AvailableCommands.OpenPercent65
  else if p ≤ 70 then AvailableCommands.OpenPercent70
  else if p ≤ 75 then AvailableCommands.OpenPercent75
  else if p ≤ 80 then AvailableCommands.OpenPercent80
  else if p ≤ 85 then AvailableCommands.OpenPercent85
  else if p ≤ 90 then AvailableCommands.OpenPercent90
  else if p ≤ 95 then AvailableCommands.OpenPercent95
  else AvailableCommands.Open

/-- api/devices.go GetCommandForPosition: clamp, then the cascade. -/
def GetCommandForPosition (position : Int) : Int :=
  getCommandForClamped (clampPos position)

/-! ## Device FSM (api/haus.go NewDeviceFSM).

The repository carries two diverging copies of `NewDeviceFSM` that build a
looplab/fsm machine from an event table.  `hausEvents` is the table at
api/haus.go lines 176-183 (initial state "initial", no stop states);
`deviceFSMEvents` is the fuller table embedded in the second half of
api/devices_test.go (initial state "initial", with stopping/stopped).
looplab/fsm semantics: an event fires only when the current state is
listed in the event's `Src`; then the state becomes `Dst`; otherwise the
transition is an error and the state is unchanged. -/

inductive DevState where
  | initial | online | offline | opening | closing | opened | closed
  | stopping | stopped
  deriving DecidableEq, Repr, Fintype

inductive DevEvent where
  | go_online | go_offline | go_open | go_close | go_opened | go_closed
  | go_stop | go_stopped
  deriving DecidableEq, Repr, Fintype

open DevState DevEvent

/-- Event table of api/haus.go NewDeviceFSM (first copy, lines 176-183):
`(Src, Dst)` per event. `opened` renders the source's "open" state. -/
def hausEvents : DevEvent → List DevState × DevState
  | go_online => ([offline, initial], online)
  | go_offline => ([online, opening, closing, opened, closed], offline)
  | go_open => ([closed], opening)
  | go_close => ([opened], closing)
  | go_opened => ([online, opening, opened, closing, closed], opened)
  | go_closed => ([online, opening, opened, closing, closed], closed)
  | go_stop => ([], online)
  | go_stopped => ([], online)

/-- Event table of the NewDeviceFSM copy embedded in api/devices_test.go
(lines 350-358), the variant that also has stopping/stopped. -/
def deviceFSMEvents : DevEvent → List DevState × DevState
  | go_online => ([offline, initial], online)
  | go_offline => ([online, opening, closing, opened, closed, stopping, stopped], offline)
  | go_open => ([closed, stopped], opening)
  | go_close => ([opened, stopped], closing)
  | go_opened => ([online, opening, opened, closing, closed, stopping, stopped], opened)
  | go_closed => ([online, opening, opened, closing, closed, stopping, stopped], closed)
  | go_stop => ([online, opening, opened, closing, closed], stopping)
  | go_stopped => ([stopping], stopped)

/-- looplab/fsm Event firing: `some dst` when the current state is in the
event's Src list, `none` (error, state unchanged) otherwise.
Note go_stop/go_stopped do not exist in the haus.go copy; they are encoded
there with an empty Src list, so they can never fire (same observable
behaviour as an unknown event in looplab/fsm). -/
def fsmTrigger (events : DevEvent → List DevState × DevState)
    (s : DevState) (e : DevEvent) : Option DevState :=
  let t := events e
  if s ∈ t.1 then some t.2 else none

/-! ## Byte-level helpers shared by the crypto embedding.
Bytes are `Nat` values; byte slices are `List Nat`. -/

/-- Bytewise XOR of two equal-length slices (zipWith, as Go's loop). -/
def xorB (a b : List Nat) : List Nat := List.zipWith Nat.xor a b

/-- Fuel-indexed block splitter (structural recursion so that the kernel
can evaluate it); the fuel is an upper bound on the input length. -/
def toBlocksAux : Nat → List Nat → List (List Nat)
  | 0, _ => []
  | fuel + 1, l =>
      if l = [] then [] else l.take 16 :: toBlocksAux fuel (l.drop 16)

/-- Split a byte slice into consecutive 16-byte blocks, exactly how Go's
cipher.BlockMode walks full blocks. -/
def toBlocks (l : List Nat) : List (List Nat) := toBlocksAux l.length l

/-- Standard base64 alphabet value of index i (0-63). -/
def base64Char (i : Nat) : Nat :=
  if i < 26 then 65 + i
  else if i < 52 then 97 + (i - 26)
  else if i < 62 then 48 + (i - 52)
  else if i = 62 then 43 else 47

/-- encoding/base64 StdEncoding encode, producing the ASCII bytes as Nats
(with '=' padding, byte 61). -/
def base64EncodeBytes (l : List Nat) : List Nat :=
  match l with
  | [] => []
  | [a] =>
      [base64Char (a / 4), base64Char (a % 4 * 16), 61, 61]
  | [a, b] =>
      [base64Char (a / 4), base64Char (a % 4 * 16 + b / 16),
       base64Char (b % 16 * 4), 61]
  | a :: b :: c :: rest =>
      base64Char (a / 4) :: base64Char (a % 4 * 16 + b / 16) ::
      base64Char (b % 16 * 4 + c / 64) :: base64Char (c % 64) ::
      base64EncodeBytes rest

/-- Convert a list of ASCII byte values into a Lean string. -/
def bytesToString (l : List Nat) : String :=
  String.mk (l.map (fun b => Char.ofNat b))

/-- UTF-8 encoding of one Unicode code point. -/
def utf8EncodeChar (c : Nat) : List Nat :=
  if c < 128 then [c]
  else if c < 2048 then [192 + c / 64, 128 + c % 64]
  else if c < 65536 then [224 + c / 4096, 128 + c / 64 % 64, 128 + c % 64]
  else [240 + c / 262144, 128 + c / 4096 % 64, 128 + c / 64 % 64, 128 + c % 64]

/-- UTF-8 bytes of a string, as Go's []byte(s). -/
def strBytes (s : String) : List Nat :=
  (s.data.map (fun ch => utf8EncodeChar ch.toNat)).flatten

/-- base64.StdEncoding.EncodeToString. -/
def base64Encode (l : List Nat) : String :=
  bytesToString (base64EncodeBytes l)

/-- Value of one base64 ASCII character, or none when invalid. -/
def base64CharVal (c : Nat) : Option Nat :=
  if 65 ≤ c ∧ c ≤ 90 then some (c - 65)
  else if 97 ≤ c ∧ c ≤ 122 then some (c - 97 + 26)
  else if 48 ≤ c ∧ c ≤ 57 then some (c - 48 + 52)
  else if c = 43 then some 62
  else if c = 47 then some 63
  else none

/-- base64.StdEncoding.DecodeString on the ASCII bytes of the input;
`none` models the error return for malformed input. -/
def base64DecodeBytes (l : List Nat) : Option (List Nat) :=
  match l with
  | [] => some []
  | [a, b, 61, 61] => do
      let va ← base64CharVal a
      let vb ← base64CharVal b
      if vb % 16 = 0 then some [va * 4 + vb / 16] else none
  | [a, b, c, 61] => do
      let va ← base64CharVal a
      let vb ← base64CharVal b
      let vc ← base64CharVal c
      if vc % 4 = 0 then some [va * 4 + vb / 16, vb % 16 * 16 + vc / 4]
      else none
  | a :: b :: c :: d :: rest => do
      let va ← base64CharVal a
      let vb ← base64CharVal b
      let vc ← base64CharVal c
      let vd ← base64CharVal d
      let tail ← base64DecodeBytes rest
      some ((va * 4 + vb / 16) :: (vb % 16 * 16 + vc / 4) :: (vc % 4 * 64 + vd) :: tail)
  | _ => none

def base64Decode (s : String) : Option (List Nat) :=
  base64DecodeBytes (strBytes s)

/-! ## Crypto primitives (src/crypto.go).

The Go file composes standard-library crypto: crypto/aes block ciphers,
crypto/md5 and crypto/sha256 hashes.  Those externals enter the embedding
as a record of functions, in exactly the shape the source consumes; the
repository's own logic (IV derivation, PKCS#5 padding and trimming, CBC
use, the HMAC construction and the signer) is translated directly. -/

structure CryptoPrims where
  /-- crypto/md5: md5.New/Sum over a string, 16 output bytes. -/
  md5 : String → List Nat
  /-- crypto/sha256 over a byte slice, 32 output bytes. -/
  sha256 : List Nat → List Nat
  /-- crypto/aes: encrypt one 16-byte block under the given key. -/
  aesEncBlock : List Nat → List Nat → List Nat
  /-- crypto/aes: decrypt one 16-byte block under the given key. -/
  aesDecBlock : List Nat → List Nat → List Nat

/-- src/crypto.go md5hash: md5 of a string. -/
def md5hash (pr : CryptoPrims) (s : String) : List Nat := pr.md5 s

/-- aes.NewCipher accepts keys of 16, 24 or 32 bytes. -/
def aesKeyValid (key : List Nat) : Prop :=
  key.length = 16 ∨ key.length = 24 ∨ key.length = 32

instance (key : List Nat) : Decidable (aesKeyValid key) := by
  unfold aesKeyValid; infer_instance

/-- src/crypto.go PKCS5Padding. -/
def PKCS5Padding (ciphertext : List Nat) (blockSize : Nat) : List Nat :=
  let padding := blockSize - ciphertext.length % blockSize
  ciphertext ++ List.replicate padding padding

/-- src/crypto.go PKCS5Trimming.  The Go code reads
`encrypt[len(encrypt)-1]`, which panics on an empty slice: that case is
`none`.  A padding byte of 0 or one larger than the slice makes the
function log and return the input unchanged (defensive branch). -/
def PKCS5Trimming (encrypt : List Nat) : Option (List Nat) :=
  match encrypt.getLast? with
  | none => none
  | some padding =>
      if padding > encrypt.length ∨ padding = 0 then some encrypt
      else some (encrypt.take (encrypt.length - padding))

/-- cipher.NewCBCEncrypter CryptBlocks over whole blocks:
each ciphertext block is E(plain XOR previous ciphertext), seeded by iv. -/
def cbcEncBlocks (enc : List Nat → List Nat) :
    List Nat → List (List Nat) → List (List Nat)
  | _, [] => []
  | prev, b :: bs =>
      let c := enc (xorB b prev)
      c :: cbcEncBlocks enc c bs

/-- cipher.NewCBCDecrypter CryptBlocks over whole blocks. -/
def cbcDecBlocks (dec : List Nat → List Nat) :
    List Nat → List (List Nat) → List (List Nat)
  | _, [] => []
  | prev, c :: cs => xorB (dec c) prev :: cbcDecBlocks dec c cs

/-- The cipher state built by NewEncCipher/NewDecCipher: an AES block
keyed by `key` plus the CBC IV `md5hash(fmt.Sprintf("%d", t))`. -/
structure CbcCipher where
  key : List Nat
  iv : List Nat

/-- NewEncCipher(key, t); errors when the key length is invalid. -/
def NewEncCipher (pr : CryptoPrims) (key : List Nat) (t : Int) :
    Except String CbcCipher :=
  if aesKeyValid key then .ok ⟨key, md5hash pr (toString t)⟩
  else .error "failed to create AES cipher"

/-- NewDecCipher(key, t); errors when the key length is invalid. -/
def NewDecCipher (pr : CryptoPrims) (key : List Nat) (t : Int) :
    Except String CbcCipher :=
  if aesKeyValid key then .ok ⟨key, md5hash pr (toString t)⟩
  else .error "failed to create AES cipher"

/-- cbcEncCipher.Encrypt: PKCS#5-pad to the 16-byte AES block size, then
CBC-encrypt. -/
def Encrypt (pr : CryptoPrims) (c : CbcCipher) (src : List Nat) : List Nat :=
  (cbcEncBlocks (pr.aesEncBlock c.key) c.iv (toBlocks (PKCS5Padding src 16))).flatten

/-- cbcDecCipher.Decrypt: CBC-decrypt then strip padding.  `none` is the
panic of PKCS5Trimming on an empty buffer. -/
def Decrypt (pr : CryptoPrims) (c : CbcCipher) (src : List Nat) :
    Option (List Nat) :=
  PKCS5Trimming (cbcDecBlocks (pr.aesDecBlock c.key) c.iv (toBlocks src)).flatten

/-! ## HMAC-SHA-256 signer (src/crypto.go hubSignature). -/

/-- crypto/hmac hmac.New(sha256.New, key): the standard HMAC construction
with SHA-256's 64-byte block size. -/
def hmacSha256 (pr : CryptoPrims) (key msg : List Nat) : List Nat :=
  let k0 := if key.length > 64 then pr.sha256 key else key
  let k := k0 ++ List.replicate (64 - k0.length) 0
  let ipad := k.map (fun b => Nat.xor b 54)
  let opad := k.map (fun b => Nat.xor b 92)
  pr.sha256 (opad ++ pr.sha256 (ipad ++ msg))

/-- src/crypto.go hubSignature: the signer retains only its key. -/
structure hubSignature where
  key : List Nat
  deriving DecidableEq

def newHubSignature (key : List Nat) : hubSignature := ⟨key⟩

/-- hubSignature.Update: a fresh Mac is created on every call
("we just need to sign anew every time"), fed "{t}:{data}", and the MAC
base64-encoded.  The returned signer is the state after the call: the Go
method mutates nothing on the receiver. -/
def hubSignature.Update (pr : CryptoPrims) (hs : hubSignature) (t : Int)
    (data : String) : String × hubSignature :=
  let s := toString t ++ ":" ++ data
  (base64Encode (hmacSha256 pr hs.key (strBytes s)), hs)

/-! ## dataPayload (src/crypto.go). -/

structure dataPayload where
  IsEncrypted : Bool
  Time : Int
  Data : String
  deriving DecidableEq

inductive ReadErr where
  | cipherInit
  | base64Error
  | panic
  deriving DecidableEq, Repr

/-- dataPayload.readData: plaintext passthrough, or NewDecCipher +
base64-decode + Decrypt.  `.error .panic` marks the case where Go panics
inside PKCS5Trimming (Decrypt of an empty buffer). -/
def dataPayload.readData (pr : CryptoPrims) (dp : dataPayload)
    (key : List Nat) : Except ReadErr (List Nat) :=
  if !dp.IsEncrypted then .ok (strBytes dp.Data)
  else
    match NewDecCipher pr key dp.Time with
    | .error _ => .error .cipherInit
    | .ok c =>
        match base64Decode dp.Data with
        | none => .error .base64Error
        | some cipherBytes =>
            match Decrypt pr c cipherBytes with
            | none => .error .panic
            | some b => .ok b

/-! ## Connection state and signed requests (src/conn.go and the two
conn variants in src/unnamed/part_007 and part_008). -/

/-- The session-relevant mutable fields of `Conn`. -/
structure ConnState where
  baseStation : String
  sessionID : String
  processID : String
  nextAccess : Int
  sequenceIDSuffix : Int
  sessionSecret : List Nat
  phoneSecret : List Nat
  phoneSecretRaw : List Nat
  deriving DecidableEq

structure RequestConfig where
  data : List Nat
  path : String
  requestIfOnline : Bool

/-- The fields of genericRequest that signedRequest fills in. -/
structure GenericRequestM where
  baseStation : String
  sessionID : String
  processID : String
  sessionSignature : String
  phoneSignature : String
  time : Int
  data : String
  isEncrypted : Bool
  path : String
  requestIfOnline : Bool
  deriving DecidableEq

/-- The nextAccess update of src/conn.go signedRequest (lines 297-301; the
same code is in part_007's first copy): `dc.nextAccess += 1000`, then take
the wall clock instead when it is larger. -/
def nextAccessStep (prev wall : Int) : Int :=
  let na := prev + 1000
  if wall > na then wall else na

/-- src/conn.go signedRequest (lines 292-329): state-passing embedding.
`wall` is the `time.Now()` millisecond reading. -/
def signedRequest (pr : CryptoPrims) (st : ConnState) (wall : Int)
    (conf : RequestConfig) : Except String (ConnState × GenericRequestM) :=
  let sessionSig := newHubSignature st.sessionSecret
  let phoneSig := newHubSignature st.phoneSecretRaw
  let nextAccess := nextAccessStep st.nextAccess wall
  match NewEncCipher pr st.phoneSecret nextAccess with
  | .error e => .error e
  | .ok c =>
      let encData := base64Encode (Encrypt pr c conf.data)
      let suffix := st.sequenceIDSuffix + 1
      let greq : GenericRequestM :=
        { baseStation := st.baseStation
          processID := st.processID ++ "-" ++ toString suffix
          sessionID := st.sessionID
          sessionSignature := (sessionSig.Update pr nextAccess encData).1
          phoneSignature := (phoneSig.Update pr nextAccess encData).1
          time := nextAccess
          data := encData
          isEncrypted := true
          path := conf.path
          requestIfOnline := conf.requestIfOnline }
      .ok ({ st with nextAccess := nextAccess, sequenceIDSuffix := suffix },
           greq)

/-- The signedRequest copy of src/unnamed/part_008 (lines 223-278): sleeps
until `nextAccess`, re-reads the clock (`wall2`), bumps by 1000, builds the
request from the resulting value, then re-seeds `nextAccess` from a third
clock reading plus 2000 ms.  `wall2` is the clock after the sleep and
`wall3` the reading at the trailing reset. -/
def signedRequest008 (pr : CryptoPrims) (st : ConnState)
    (wall2 wall3 : Int) (conf : RequestConfig) :
    Except String (ConnState × GenericRequestM) :=
  let sessionSig := newHubSignature st.sessionSecret
  let phoneSig := newHubSignature st.phoneSecretRaw
  let na0 := if wall2 > st.nextAccess then wall2 else st.nextAccess
  let nextAccess := na0 + 1000
  match NewEncCipher pr st.phoneSecret nextAccess with
  | .error e => .error e
  | .ok c =>
      let encData := base64Encode (Encrypt pr c conf.data)
      let suffix := st.sequenceIDSuffix + 1
      let greq : GenericRequestM :=
        { baseStation := st.baseStation
          processID := st.processID ++ "-" ++ toString suffix
          sessionID := st.sessionID
          sessionSignature := (sessionSig.Update pr nextAccess encData).1
          phoneSignature := (phoneSig.Update pr nextAccess encData).1
          time := nextAccess
          data := encData
          isEncrypted := true
          path := conf.path
          requestIfOnline := conf.requestIfOnline }
      .ok ({ st with nextAccess := wall3 + 2000, sequenceIDSuffix := suffix },
           greq)

/-- Iterate src/conn.go signedRequest over a list of wall-clock readings,
returning the envelopes produced (oldest first). -/
def runSignedRequests (pr : CryptoPrims) (st : ConnState) :
    List Int → Except String (ConnState × List GenericRequestM)
  | [] => .ok (st, [])
  | w :: ws =>
      match signedRequest pr st w { data := [], path := "", requestIfOnline := true } with
      | .error e => .error e
      | .ok (st2, greq) =>
          match runSignedRequests pr st2 ws with
          | .error e => .error e
          | .ok (st3, reqs) => .ok (st3, greq :: reqs)

/-! ## Message dispatch: reply correlation.

`msgDispatchGeneric` embeds the message loop inside genericRequest
(src/unnamed/part_007 first copy, lines 251-291).  `msgDispatchInternal`
embeds the loop of internalMessages (src/unnamed/part_008, lines 367-387).
The correlation map `unresolvedRPC` becomes the list of waiting processIDs,
and a channel send becomes an entry in `delivered`. -/

/-- A message as the dispatch loops see it. -/
structure MessageW where
  processID : String
  processState : Option Int
  payload : dataPayload
  deriving DecidableEq

structure DispatchState where
  waiting : List String
  delivered : List (String × List Nat)
  pending : List (String × List Nat)
  inline : Option (List Nat)
  deriving DecidableEq

/-- The genericRequest message loop (part_007 first copy): a decode error
aborts the whole call; an empty processID is queued as a status broadcast;
a message matching the request's own processID becomes the inline response
when processState is nil or 0 and is ignored otherwise; any other
processID is delivered to its registered waiter (which is removed), or
dropped with a debug log when unknown. -/
def msgDispatchGeneric (pr : CryptoPrims) (key : List Nat) (reqPid : String) :
    DispatchState → List MessageW → Except ReadErr DispatchState
  | st, [] => .ok st
  | st, m :: rest =>
      match m.payload.readData pr key with
      | .error e => .error e
      | .ok b =>
          if m.processID = "" then
            msgDispatchGeneric pr key reqPid
              { st with pending := st.pending ++ [(m.processID, b)] } rest
          else if reqPid = m.processID then
            if m.processState = none ∨ m.processState = some 0 then
              msgDispatchGeneric pr key reqPid { st with inline := some b } rest
            else
              msgDispatchGeneric pr key reqPid st rest
          else if m.processID ∈ st.waiting then
            msgDispatchGeneric pr key reqPid
              { st with
                waiting := st.waiting.erase m.processID
                delivered := st.delivered ++ [(m.processID, b)] } rest
          else
            msgDispatchGeneric pr key reqPid st rest

/-- The internalMessages loop (part_008 lines 367-387): a decode error
skips the message; a non-empty processID is delivered to its waiter when
registered (no processState check) and silently dropped otherwise; an
empty processID is queued as a status broadcast. -/
def msgDispatchInternal (pr : CryptoPrims) (key : List Nat) :
    DispatchState → List MessageW → DispatchState
  | st, [] => st
  | st, m :: rest =>
      match m.payload.readData pr key with
      | .error _ => msgDispatchInternal pr key st rest
      | .ok b =>
          if m.processID ≠ "" then
            if m.processID ∈ st.waiting then
              msgDispatchInternal pr key
                { st with
                  delivered := st.delivered ++ [(m.processID, b)]
                  waiting := st.waiting.erase m.processID } rest
            else
              msgDispatchInternal pr key st rest
          else
            msgDispatchInternal pr key
              { st with pending := st.pending ++ [(m.processID, b)] } rest

/-! ## waitForPid poll loop (src/unnamed/part_008 lines 479-518; the same
code is in part_007's first copy, lines 497-536).

A 20 s timer races a 350 ms ticker; every tick decrements `ticks`, and
when it reaches zero the caller polls /app/res/messages, then sets
`ticks := calls` with `calls` freshly incremented.  We simulate the run in
which no reply is ever delivered on the channel: every ticker event that
fires strictly before the 20 s timer is processed, then the timer fires
and the call returns ErrTimeout. -/

structure WaitSt where
  calls : Nat
  ticks : Int
  deriving DecidableEq

/-- One ticker event of the waitForPid select loop; the Bool says whether
this tick triggered a poll of internalMessages. -/
def waitTickStep (st : WaitSt) : WaitSt × Bool :=
  let t := st.ticks - 1
  if t > 0 then ({ st with ticks := t }, false)
  else ({ calls := st.calls + 1, ticks := ((st.calls + 1 : Nat) : Int) }, true)

inductive WaitEv where
  | tick (k : Nat)
  | timerFired
  deriving DecidableEq

inductive RPCResult where
  | timeout
  | reply (b : List Nat)
  deriving DecidableEq

/-- Run the select loop over a trace of events, collecting the tick
indices at which a poll happened.  The timer firing returns ErrTimeout. -/
def waitLoop : WaitSt → List WaitEv → List Nat × Option RPCResult
  | _, [] => ([], none)
  | _, .timerFired :: _ => ([], some .timeout)
  | st, .tick k :: rest =>
      let s := waitTickStep st
      let r := waitLoop s.1 rest
      (if s.2 then k :: r.1 else r.1, r.2)

def tickPeriodMs : Nat := 350
def rpcTimeoutMs : Nat := 20000

/-- Event trace when no reply ever arrives: the ticker fires at 350·k ms
for every k with 350·k < 20000 (that is k = 1..57), then the 20 s timer
fires. -/
def noReplyTrace : List WaitEv :=
  ((List.range' 1 ((rpcTimeoutMs - 1) / tickPeriodMs)).map WaitEv.tick)
    ++ [WaitEv.timerFired]

/-- waitForPid in the run where the reply never arrives: initial state has
calls = 0 and ticks = 1. -/
def waitForPidNoReply : List Nat × Option RPCResult :=
  waitLoop ⟨0, 1⟩ noReplyTrace

/-! ## MQTT publication layer (api/haus.go).

`publishToMQTT(topic, qos, retained, payload)` is modelled by the record of
arguments it passes to the paho client.  Topic templates are the constants
at the top of api/haus.go; `pre` is the configured MQTT topic root. -/

structure PublishRec where
  topic : String
  qos : Nat
  retained : Bool
  payload : String
  deriving DecidableEq

def stateTopic (pre id : String) : String := pre ++ "/" ++ id ++ "/state"

def availabilityTopic (pre id : String) : String :=
  pre ++ "/" ++ id ++ "/availability"

/-- MQTTHandler.PublishStatus (api/haus.go lines 97-100): state topic,
QoS 0, retained=false. -/
def PublishStatus (pre id status : String) : PublishRec :=
  { topic := stateTopic pre id, qos := 0, retained := false, payload := status }

/-- MQTTHandler.PublishAvailability (api/haus.go lines 103-106):
availability topic, QoS 0, retained=false. -/
def PublishAvailability (pre id availability : String) : PublishRec :=
  { topic := availabilityTopic pre id, qos := 0, retained := false,
    payload := availability }

/-- The MQTT publication performed by each FSM entry callback of
NewDeviceFSM (the devices_test.go copy, lines 360-421; the haus.go copy
lines 184-219 performs the same publications for its states):
enter_online/enter_offline publish availability, the motion and terminal
states publish the state string.  `initial` has no callback. -/
def enterCallbackPublish (pre id : String) : DevState → Option PublishRec
  | online => some (PublishAvailability pre id "online")
  | offline => some (PublishAvailability pre id "offline")
  | opening => some (PublishStatus pre id "opening")
  | closing => some (PublishStatus pre id "closing")
  | stopping => some (PublishStatus pre id "stopping")
  | opened => some (PublishStatus pre id "open")
  | closed => some (PublishStatus pre id "closed")
  | _ => none

/-! ## Concrete instantiations used to exercise the embeddings.

`testPrims` stands in for the standard-library crypto externals when a
theorem is evaluated at a concrete input: a 16-byte digest, a 32-byte
digest, and an involutive 16-byte block cipher. -/

def testPrims : CryptoPrims :=
  { md5 := fun _ => List.replicate 16 0
    sha256 := fun l => (l ++ List.replicate 32 0).take 32
    aesEncBlock := fun _ b => b.map (fun x => Nat.xor x 90)
    aesDecBlock := fun _ b => b.map (fun x => Nat.xor x 90) }

/-- A concrete session state for exercising signedRequest. -/
def exConnState : ConnState :=
  { baseStation := "bsid1"
    sessionID := "sess1"
    processID := "170-E--42"
    nextAccess := 4000
    sequenceIDSuffix := 3
    sessionSecret := strBytes "GznHzaWnOwrQx3KJA3U8Ly"
    phoneSecret := List.replicate 16 0
    phoneSecretRaw := strBytes "AjXEy8OcGOrwwEdQ" }

def exWalls : List Int := [0, 5500, 6000]

/-- The concrete signedRequest run used by witnesses: three requests at
the wall clocks of exWalls. -/
def exRun : ConnState × List GenericRequestM :=
  (runSignedRequests testPrims exConnState exWalls).toOption.getD
    (exConnState, [])

def exConf : RequestConfig := { data := [1, 2, 3], path := "app/res/action", requestIfOnline := true }

/-- Concrete single signedRequest step used by witnesses. -/
def exStep : ConnState × GenericRequestM :=
  (signedRequest testPrims exConnState 0 exConf).toOption.getD
    (exConnState, { baseStation := "", sessionID := "", processID := ""
                    sessionSignature := "", phoneSignature := "", time := 0
                    data := "", isEncrypted := false, path := ""
                    requestIfOnline := false })

/-- Concrete signedRequest008 step used by witnesses. -/
def exStep008 : ConnState × GenericRequestM :=
  (signedRequest008 testPrims exConnState 4200 9000 exConf).toOption.getD
    (exConnState, { baseStation := "", sessionID := "", processID := ""
                    sessionSignature := "", phoneSignature := "", time := 0
                    data := "", isEncrypted := false, path := ""
                    requestIfOnline := false })

/-- An intermediate reply (processState = 1) addressed to the registered
waiter "p1", with a plaintext payload. -/
def exInterMsg : MessageW :=
  { processID := "p1", processState := some 1
    payload := { IsEncrypted := false, Time := 0, Data := "done" } }

/-- A dispatch state with one registered waiter "p1". -/
def exDispatch : DispatchState :=
  { waiting := ["p1"], delivered := [], pending := [], inline := none }

/-! ## Supporting lemmas. -/

lemma toBlocksAux_congr : ∀ (f1 f2 : Nat) (l : List Nat),
    l.length ≤ f1 → l.length ≤ f2 → toBlocksAux f1 l = toBlocksAux f2 l := by
  intro f1
  induction f1 with
  | zero =>
      intro f2 l h1 _
      have : l = [] := List.eq_nil_of_length_eq_zero (by omega)
      subst this
      cases f2 <;> simp [toBlocksAux]
  | succ f ih =>
      intro f2 l h1 h2
      cases f2 with
      | zero =>
          have : l = [] := List.eq_nil_of_length_eq_zero (by omega)
          subst this
          simp [toBlocksAux]
      | succ g =>
          by_cases hl : l = []
          · subst hl; simp [toBlocksAux]
          · have hpos : 0 < l.length := List.length_pos.mpr hl
            simp only [toBlocksAux, if_neg hl]
            congr 1
            exact ih g (l.drop 16) (by simp [List.length_drop]; omega)
              (by simp [List.length_drop]; omega)

/-- Unfolding equation of toBlocks on a nonempty list. -/
lemma toBlocks_ne_nil (l : List Nat) (hl : l = [] → False) :
    toBlocks l = l.take 16 :: toBlocks (l.drop 16) := by
  have hpos : 0 < l.length := List.length_pos.mpr (by intro h; exact hl h)
  obtain ⟨n, hn⟩ : ∃ n, l.length = n + 1 := ⟨l.length - 1, by omega⟩
  unfold toBlocks
  rw [hn]
  simp only [toBlocksAux, if_neg (show l ≠ [] from fun h => hl h)]
  congr 1
  exact toBlocksAux_congr n (l.drop 16).length (l.drop 16)
    (by simp [List.length_drop]; omega) (le_refl _)

/-- flatten undoes toBlocks. -/
lemma flatten_toBlocks (l : List Nat) : (toBlocks l).flatten = l := by
  suffices h : ∀ (n : Nat) (l : List Nat), l.length ≤ n →
      (toBlocks l).flatten = l from h l.length l le_rfl
  intro n
  induction n with
  | zero =>
      intro l hlen
      have : l = [] := List.eq_nil_of_length_eq_zero (by omega)
      subst this
      simp [toBlocks, toBlocksAux]
  | succ n ih =>
      intro l hlen
      by_cases hl : l = []
      · subst hl; simp [toBlocks, toBlocksAux]
      · have hpos : 0 < l.length := List.length_pos.mpr hl
        rw [toBlocks_ne_nil l (fun h => hl h)]
        simp only [List.flatten_cons]
        rw [ih (l.drop 16) (by simp [List.length_drop]; omega)]
        exact List.take_append_drop 16 l

lemma toBlocks_cons16 (b t : List Nat) (hb : b.length = 16) :
    toBlocks (b ++ t) = b :: toBlocks t := by
  have hne : b ++ t = [] → False := by
    intro h
    have := congrArg List.length h
    simp [hb] at this
  rw [toBlocks_ne_nil _ hne]
  rw [show (16 : Nat) = b.length from hb.symm, List.take_left, List.drop_left]

lemma toBlocks_flatten_blocks : ∀ (bs : List (List Nat)),
    (∀ b ∈ bs, b.length = 16) → toBlocks bs.flatten = bs := by
  intro bs
  induction bs with
  | nil => intro _; simp [toBlocks, toBlocksAux]
  | cons b bs ih =>
      intro h
      simp only [List.flatten_cons]
      rw [toBlocks_cons16 b bs.flatten (h b (by simp))]
      rw [ih (fun x hx => h x (by simp [hx]))]

lemma xorB_length (a b : List Nat) : (xorB a b).length = min a.length b.length := by
  simp [xorB]

lemma xorB_cancel : ∀ (a p : List Nat), a.length = p.length →
    xorB (xorB a p) p = a := by
  intro a
  induction a with
  | nil => intro p h; simp [xorB]
  | cons x xs ih =>
      intro p h
      cases p with
      | nil => simp at h
      | cons y ys =>
          simp only [xorB, List.zipWith_cons_cons]
          rw [show Nat.xor (Nat.xor x y) y = x from Nat.xor_cancel_right y x]
          exact congrArg (x :: ·) (ih ys (by simpa using h))

/-- Every block produced by toBlocks of a 16-aligned list has length 16. -/
lemma toBlocks_block_length : ∀ (n : Nat) (l : List Nat), l.length ≤ n →
    l.length % 16 = 0 → ∀ b ∈ toBlocks l, b.length = 16 := by
  intro n
  induction n with
  | zero =>
      intro l hlen _ b hb
      have : l = [] := List.eq_nil_of_length_eq_zero (by omega)
      subst this
      simp [toBlocks, toBlocksAux] at hb
  | succ n ih =>
      intro l hlen hmod b hb
      by_cases hl : l = []
      · subst hl; simp [toBlocks, toBlocksAux] at hb
      · have hpos : 0 < l.length := List.length_pos.mpr hl
        have h16 : 16 ≤ l.length := by omega
        rw [toBlocks_ne_nil l (fun h => hl h)] at hb
        rcases List.mem_cons.mp hb with h | h
        · subst h; simp [List.length_take]; omega
        · exact ih (l.drop 16) (by simp [List.length_drop]; omega)
            (by simp [List.length_drop]; omega) b h

/-- Lengths of the CBC ciphertext blocks, given the block cipher keeps
16-byte blocks. -/
lemma cbcEncBlocks_length (enc : List Nat → List Nat)
    (henc : ∀ b : List Nat, b.length = 16 → (enc b).length = 16) :
    ∀ (bs : List (List Nat)) (prev : List Nat), prev.length = 16 →
      (∀ b ∈ bs, b.length = 16) →
      ∀ c ∈ cbcEncBlocks enc prev bs, c.length = 16 := by
  intro bs
  induction bs with
  | nil => intro prev _ _ c hc; simp [cbcEncBlocks] at hc
  | cons b bs ih =>
      intro prev hprev hbs c hc
      have hb : b.length = 16 := hbs b (by simp)
      have hxor : (xorB b prev).length = 16 := by
        rw [xorB_length, hb, hprev]; simp
      have hcl : (enc (xorB b prev)).length = 16 := henc _ hxor
      simp only [cbcEncBlocks] at hc
      rcases List.mem_cons.mp hc with h | h
      · subst h; exact hcl
      · exact ih (enc (xorB b prev)) hcl (fun x hx => hbs x (by simp [hx])) c h

/-- CBC decryption inverts CBC encryption blockwise. -/
lemma cbcDecBlocks_cbcEncBlocks (enc dec : List Nat → List Nat)
    (henc : ∀ b : List Nat, b.length = 16 → (enc b).length = 16)
    (hinv : ∀ b : List Nat, b.length = 16 → dec (enc b) = b) :
    ∀ (bs : List (List Nat)) (prev : List Nat), prev.length = 16 →
      (∀ b ∈ bs, b.length = 16) →
      cbcDecBlocks dec prev (cbcEncBlocks enc prev bs) = bs := by
  intro bs
  induction bs with
  | nil => intro prev _ _; simp [cbcEncBlocks, cbcDecBlocks]
  | cons b bs ih =>
      intro prev hprev hbs
      have hb : b.length = 16 := hbs b (by simp)
      have hxor : (xorB b prev).length = 16 := by
        rw [xorB_length, hb, hprev]; simp
      simp only [cbcEncBlocks, cbcDecBlocks]
      rw [hinv _ hxor]
      rw [xorB_cancel b prev (by omega)]
      exact congrArg (b :: ·)
        (ih (enc (xorB b prev)) (henc _ hxor) (fun x hx => hbs x (by simp [hx])))

lemma PKCS5Padding_length (src : List Nat) :
    (PKCS5Padding src 16).length = src.length + (16 - src.length % 16) := by
  simp [PKCS5Padding]

lemma PKCS5Padding_mod (src : List Nat) :
    (PKCS5Padding src 16).length % 16 = 0 := by
  rw [PKCS5Padding_length]
  omega

/-- Trimming undoes padding. -/
lemma PKCS5Trimming_PKCS5Padding (src : List Nat) :
    PKCS5Trimming (PKCS5Padding src 16) = some src := by
  set p := 16 - src.length % 16 with hp
  have hp1 : 1 ≤ p := by omega
  have hrepl : List.replicate p p = List.replicate (p - 1) p ++ [p] := by
    have h := List.replicate_succ' (p - 1) p
    rw [show p - 1 + 1 = p by omega] at h
    exact h
  have hpad : PKCS5Padding src 16 = src ++ List.replicate p p := by
    simp only [PKCS5Padding, hp]
  have hlast : (PKCS5Padding src 16).getLast? = some p := by
    rw [hpad, hrepl, ← List.append_assoc, List.getLast?_concat]
  have hlen : (PKCS5Padding src 16).length = src.length + p := by
    simp [hpad]
  rw [PKCS5Trimming.eq_def, hlast]
  simp only
  rw [if_neg (by omega)]
  congr 1
  rw [hlen, show src.length + p - p = src.length by omega, hpad]
  exact List.take_left' rfl

/-! ## Claim theorems. -/

/-- Claim C2 counterexample: in the code the FSM does NOT accept go_open
from state online — neither the haus.go table nor the devices_test.go
table lists online among go_open's sources, so go_open in online is an
illegal transition (the FSM stays put), contradicting the claim's
"triggering go_open in state online moves the FSM to opening". -/
theorem C2_counterexample :
    fsmTrigger deviceFSMEvents DevState.online DevEvent.go_open = none ∧
    fsmTrigger hausEvents DevState.online DevEvent.go_open = none := by
  decide

/-- Claim C2 (amended): the device FSM accepts go_open exactly from
closed and stopped (exactly from closed in the haus.go copy, which has no
stop states), with destination opening; go_open in state initial — and
also in state online — is illegal. -/
theorem C2_go_open_sources :
    (∀ s : DevState, (fsmTrigger deviceFSMEvents s DevEvent.go_open).isSome ↔
        (s = DevState.closed ∨ s = DevState.stopped)) ∧
    (∀ s : DevState, (fsmTrigger hausEvents s DevEvent.go_open).isSome ↔
        s = DevState.closed) ∧
    fsmTrigger deviceFSMEvents DevState.closed DevEvent.go_open = some DevState.opening ∧
    fsmTrigger deviceFSMEvents DevState.stopped DevEvent.go_open = some DevState.opening ∧
    fsmTrigger hausEvents DevState.closed DevEvent.go_open = some DevState.opening ∧
    fsmTrigger deviceFSMEvents DevState.initial DevEvent.go_open = none ∧
    fsmTrigger hausEvents DevState.initial DevEvent.go_open = none := by
  decide

/-- Claim C4 counterexample: the availability publication made for a
device coming online (as from the enter_online callback) carries
retained=false, not retained=true as the claim states. -/
theorem C4_counterexample :
    enterCallbackPublish "haus" "dev1" DevState.online =
      some { topic := "haus/dev1/availability", qos := 0, retained := false,
             payload := "online" } ∧
    ((PublishAvailability "haus" "dev1" "online").retained == true) = false :=
  ⟨rfl, rfl⟩

/-- Claim C4 (amended): every availability publication made through
MQTTHandler.PublishAvailability — including the ones issued by the FSM's
enter_online/enter_offline callbacks — is published with retain = false,
exactly like every state publication through PublishStatus; both use
QoS 0 and the availability/state topic templates. -/
theorem C4_retain_flags :
    (∀ pre id avail : String, (PublishAvailability pre id avail).retained = false ∧
        (PublishAvailability pre id avail).qos = 0 ∧
        (PublishAvailability pre id avail).topic = availabilityTopic pre id) ∧
    (∀ pre id status : String, (PublishStatus pre id status).retained = false ∧
        (PublishStatus pre id status).qos = 0 ∧
        (PublishStatus pre id status).topic = stateTopic pre id) ∧
    (∀ pre id : String,
        enterCallbackPublish pre id DevState.online = some (PublishAvailability pre id "online") ∧
        enterCallbackPublish pre id DevState.offline = some (PublishAvailability pre id "offline") ∧
        enterCallbackPublish pre id DevState.opening = some (PublishStatus pre id "opening") ∧
        enterCallbackPublish pre id DevState.closing = some (PublishStatus pre id "closing") ∧
        enterCallbackPublish pre id DevState.stopping = some (PublishStatus pre id "stopping") ∧
        enterCallbackPublish pre id DevState.opened = some (PublishStatus pre id "open") ∧
        enterCallbackPublish pre id DevState.closed = some (PublishStatus pre id "closed")) :=
  ⟨fun _ _ _ => ⟨rfl, rfl, rfl⟩,
   fun _ _ _ => ⟨rfl, rfl, rfl⟩,
   fun _ _ => ⟨rfl, rfl, rfl, rfl, rfl, rfl, rfl⟩⟩

/-- Claim C5 counterexample: the second poll of waitForPid happens one
tick (not two ticks) after the first — the poll ticks begin [1, 2], not
[1, 3] as "the n-th poll waits n ticks after the previous one" would
require. -/
theorem C5_counterexample :
    waitForPidNoReply.1.take 2 = [1, 2] ∧
    (waitForPidNoReply.1.take 2 == [1, 3]) = false := by
  decide

/-- Claim C5 (amended): with no reply ever delivered, waitForPid returns
ErrTimeout when the 20 s timer fires; the caller polls on a 350 ms tick,
the first poll after one tick, and the (n+1)-th poll waits n ticks after
the n-th (poll ticks 1, 2, 4, 7, 11, 16, 22, 29, 37, 46, 56 within the
20 s deadline). -/
theorem C5_schedule :
    tickPeriodMs = 350 ∧ rpcTimeoutMs = 20000 ∧
    waitForPidNoReply.2 = some RPCResult.timeout ∧
    waitForPidNoReply.1 = [1, 2, 4, 7, 11, 16, 22, 29, 37, 46, 56] ∧
    waitForPidNoReply.1.head? = some 1 ∧
    ((List.range 10).all (fun i =>
        waitForPidNoReply.1.getD (i + 1) 0 - waitForPidNoReply.1.getD i 0 == i + 1)) = true := by
  decide

/-- Claim C7: GetCommandForPosition clamps to [0,100], maps 0 to close(4),
each bucket 5k+1..5k+5 (k = 0..18) to the open_percent command 32+k
(rounding up within the bucket), 96..100 to open(2), and the cited
concrete values all hold. -/
theorem C7_position_mapping :
    (∀ p : Int, p ≤ 0 → GetCommandForPosition p = 4) ∧
    (∀ p : Int, 96 ≤ p → GetCommandForPosition p = 2) ∧
    (∀ k : Nat, k < 19 → ∀ p : Int, 5 * k + 1 ≤ p → p ≤ 5 * k + 5 →
        GetCommandForPosition p = 32 + k) ∧
    GetCommandForPosition 0 = 4 ∧ GetCommandForPosition 5 = 32 ∧
    GetCommandForPosition 12 = 34 ∧ GetCommandForPosition 50 = 41 ∧
    GetCommandForPosition 95 = 50 ∧ GetCommandForPosition 96 = 2 ∧
    GetCommandForPosition (-10) = 4 ∧ GetCommandForPosition 150 = 2 := by
  refine ⟨?_, ?_, ?_, by decide, by decide, by decide, by decide, by decide,
          by decide, by decide, by decide⟩
  · intro p hp
    unfold GetCommandForPosition
    have h : clampPos p = 0 := by unfold clampPos; split_ifs <;> omega
    rw [h]; decide
  · intro p hp
    unfold GetCommandForPosition
    have h1 : 96 ≤ clampPos p := by unfold clampPos; split_ifs <;> omega
    have h2 : clampPos p ≤ 100 := by unfold clampPos; split_ifs <;> omega
    set q := clampPos p with hq
    interval_cases q <;> decide
  · intro k hk p hp1 hp2
    unfold GetCommandForPosition
    have h : clampPos p = p := by unfold clampPos; split_ifs <;> omega
    rw [h]
    interval_cases k <;> (interval_cases p <;> decide)

/-- Claim C7 witness: the theorem applied at concrete inputs. -/
theorem C7_position_mapping_witness :
    GetCommandForPosition (-3) = 4 ∧ GetCommandForPosition 100 = 2 ∧
    GetCommandForPosition 37 = 32 + 7 :=
  ⟨C7_position_mapping.1 (-3) (by decide),
   C7_position_mapping.2.1 100 (by decide),
   C7_position_mapping.2.2.1 7 (by decide) 37 (by decide) (by decide)⟩

/-- Claim C8: with matching key and time, Decrypt of NewDecCipher inverts
Encrypt of NewEncCipher on every plaintext: pad-then-CBC-encrypt followed
by CBC-decrypt-then-trim is the identity.  The AES block primitive and
MD5 are the standard-library externals, assumed to behave as such: MD5
yields a 16-byte digest and the keyed AES block cipher is a
length-preserving invertible map on 16-byte blocks. -/
theorem C8_encrypt_decrypt_roundtrip (pr : CryptoPrims) (key : List Nat)
    (t : Int) (src : List Nat)
    (hkey : aesKeyValid key)
    (hmd5 : (pr.md5 (toString t)).length = 16)
    (henc : ∀ b : List Nat, b.length = 16 → (pr.aesEncBlock key b).length = 16)
    (hinv : ∀ b : List Nat, b.length = 16 → pr.aesDecBlock key (pr.aesEncBlock key b) = b) :
    NewEncCipher pr key t = .ok ⟨key, md5hash pr (toString t)⟩ ∧
    NewDecCipher pr key t = .ok ⟨key, md5hash pr (toString t)⟩ ∧
    Decrypt pr ⟨key, md5hash pr (toString t)⟩
      (Encrypt pr ⟨key, md5hash pr (toString t)⟩ src) = some src := by
  refine ⟨by simp [NewEncCipher, hkey], by simp [NewDecCipher, hkey], ?_⟩
  unfold Encrypt Decrypt
  have hiv : (md5hash pr (toString t)).length = 16 := hmd5
  have hblocks : ∀ b ∈ toBlocks (PKCS5Padding src 16), b.length = 16 :=
    toBlocks_block_length (PKCS5Padding src 16).length _ le_rfl
      (PKCS5Padding_mod src)
  have hencbl := cbcEncBlocks_length (pr.aesEncBlock key) henc
    (toBlocks (PKCS5Padding src 16)) _ hiv hblocks
  rw [toBlocks_flatten_blocks _ hencbl]
  rw [cbcDecBlocks_cbcEncBlocks (pr.aesEncBlock key) (pr.aesDecBlock key)
    henc hinv _ _ hiv hblocks]
  rw [flatten_toBlocks]
  exact PKCS5Trimming_PKCS5Padding src

/-- Claim C9: the HMAC signer is deterministic and stateless —
hubSignature.Update leaves the signer unchanged, a second invocation on
the same instance returns the identical string, and the output is the
pure function base64(HMAC-SHA-256(key, "{t}:{data}")) of the inputs. -/
theorem C9_signer_deterministic (pr : CryptoPrims) (key : List Nat)
    (t : Int) (data : String) :
    ((newHubSignature key).Update pr t data).2 = newHubSignature key ∧
    (((newHubSignature key).Update pr t data).2.Update pr t data).1 =
      ((newHubSignature key).Update pr t data).1 ∧
    ((newHubSignature key).Update pr t data).1 =
      base64Encode (hmacSha256 pr key (strBytes (toString t ++ ":" ++ data))) :=
  ⟨rfl, rfl, rfl⟩

/-- Claim C10: Decrypt on a zero-length ciphertext is not total —
PKCS5Trimming indexes the last byte of an empty slice and panics (the
`none` case), so readData on an encrypted payload whose data field
base64-decodes to the empty string panics instead of returning an error
or the defensive un-padded buffer. -/
theorem C10_empty_ciphertext_panics (pr : CryptoPrims) (key : List Nat)
    (t : Int) (hkey : aesKeyValid key) :
    PKCS5Trimming [] = none ∧
    Decrypt pr ⟨key, md5hash pr (toString t)⟩ [] = none ∧
    dataPayload.readData pr ⟨true, t, ""⟩ key = .error .panic := by
  refine ⟨rfl, rfl, ?_⟩
  simp [dataPayload.readData, NewDecCipher, hkey]
  rfl

/-- Claim C10 witness: the panic observed with a concrete 16-byte key. -/
theorem C10_witness :
    dataPayload.readData testPrims ⟨true, 12345, ""⟩ (List.replicate 16 0) =
      .error .panic :=
  (C10_empty_ciphertext_panics testPrims (List.replicate 16 0) 12345
    (by decide)).2.2

/-- Claim C1 counterexample: an intermediate message (processState = 1)
addressed to the registered waiter "p1" is DELIVERED to the waiter by the
internalMessages poll loop (and by the genericRequest loop), removing the
waiter — it is not dropped, and the waiter does not keep waiting, contrary
to the claim. -/
theorem C1_counterexample :
    exInterMsg.processState = some 1 ∧
    msgDispatchInternal testPrims [] exDispatch [exInterMsg] =
      { waiting := [], delivered := [("p1", strBytes "done")], pending := [],
        inline := none } ∧
    msgDispatchGeneric testPrims [] "other" exDispatch [exInterMsg] =
      .ok { waiting := [], delivered := [("p1", strBytes "done")],
            pending := [], inline := none } :=
  ⟨rfl, rfl, rfl⟩

/-- Claim C1 (amended): the intermediate-drop applies only to the inline
reply path.  Inside genericRequest, a returned message whose processID
equals the in-flight request's own processID becomes the inline response
when processState is null or 0 and is dropped (waiter keeps waiting) when
processState is nonzero; but a polled message whose processID matches a
registered waiter is delivered to that waiter exactly once — in both the
genericRequest loop and the internalMessages loop — regardless of its
processState. -/
theorem C1_reply_correlation (pr : CryptoPrims) (key : List Nat)
    (reqPid : String) (st : DispatchState) (m : MessageW) (b : List Nat)
    (hdec : m.payload.readData pr key = Except.ok b)
    (hne : m.processID = "" → False)
    (hwait : m.processID ∈ st.waiting)
    (hnreq : reqPid = m.processID → False) :
    msgDispatchInternal pr key st [m] =
      { st with delivered := st.delivered ++ [(m.processID, b)],
                waiting := st.waiting.erase m.processID } ∧
    msgDispatchGeneric pr key reqPid st [m] =
      .ok { st with waiting := st.waiting.erase m.processID,
                    delivered := st.delivered ++ [(m.processID, b)] } ∧
    ((m.processState = none ∨ m.processState = some 0) →
        msgDispatchGeneric pr key m.processID st [m] =
          .ok { st with inline := some b }) ∧
    (∀ v : Int, m.processState = some v → (v = 0 → False) →
        msgDispatchGeneric pr key m.processID st [m] = .ok st) := by
  have hne' : ¬ m.processID = "" := fun h => hne h
  have hnreq' : ¬ reqPid = m.processID := fun h => hnreq h
  refine ⟨?_, ?_, ?_, ?_⟩
  · simp [msgDispatchInternal, hdec, hne', hwait]
  · simp [msgDispatchGeneric, hdec, hne', hwait, hnreq']
  · intro hstate
    simp [msgDispatchGeneric, hdec, hne', hstate]
  · intro v hv hv0
    have hcond : ¬ (m.processState = none ∨ m.processState = some 0) := by
      intro h
      rcases h with h | h
      · rw [hv] at h; cases h
      · rw [hv] at h; exact hv0 (Option.some.inj h)
    simp [msgDispatchGeneric, hdec, hne', hcond]

/-- Claim C1 witness: the amended theorem evaluated at the concrete
intermediate message and one-waiter dispatch state. -/
theorem C1_witness :
    msgDispatchInternal testPrims [] exDispatch [exInterMsg] =
      { waiting := [], delivered := [("p1", strBytes "done")], pending := [],
        inline := none } := by
  have h := (C1_reply_correlation testPrims [] "other" exDispatch exInterMsg
    (strBytes "done") (by rfl) (by decide) (by decide) (by decide)).1
  exact h.trans (by rfl)

lemma nextAccessStep_ge (prev wall : Int) :
    prev + 1000 ≤ nextAccessStep prev wall ∧ wall ≤ nextAccessStep prev wall := by
  simp only [nextAccessStep]
  split_ifs <;> omega

lemma signedRequest_ok (pr : CryptoPrims) (st : ConnState) (wall : Int)
    (conf : RequestConfig) (st2 : ConnState) (greq : GenericRequestM)
    (h : signedRequest pr st wall conf = .ok (st2, greq)) :
    greq.time = nextAccessStep st.nextAccess wall ∧
    st2 = { st with nextAccess := nextAccessStep st.nextAccess wall,
                    sequenceIDSuffix := st.sequenceIDSuffix + 1 } ∧
    greq.processID =
      st.processID ++ "-" ++ toString (st.sequenceIDSuffix + 1) := by
  simp only [signedRequest] at h
  cases hc : NewEncCipher pr st.phoneSecret (nextAccessStep st.nextAccess wall) with
  | error e => rw [hc] at h; cases h
  | ok c =>
      rw [hc] at h
      simp only [Except.ok.injEq, Prod.mk.injEq] at h
      obtain ⟨hst2, hgreq⟩ := h
      subst hst2
      subst hgreq
      exact ⟨rfl, rfl, rfl⟩

/-- Claim C3 counterexample: the code computes
nextAccess = max(previous + 1000, wall clock), which is NOT at least
max(wall clock, previous) + 1000 — at previous = 0, wall = 5000 the new
value is exactly 5000, a full second below the claimed lower bound 6000. -/
theorem C3_counterexample :
    nextAccessStep 0 5000 = 5000 ∧
    (decide (max (5000 : Int) 0 + 1000 ≤ nextAccessStep 0 5000)) = false :=
  ⟨rfl, rfl⟩

/-- Claim C3 (amended): across every sequence of signed requests in one
session, the envelope nextAccess timestamp is strictly increasing —
each consecutive pair advances by at least 1000 ms, the value being
max(previous + 1000, wall clock) — and the processID sequence suffix
increases by exactly 1 per request. -/
theorem C3_session_monotonic (pr : CryptoPrims) :
    ∀ (walls : List Int) (st st2 : ConnState) (reqs : List GenericRequestM),
      runSignedRequests pr st walls = .ok (st2, reqs) →
      List.Chain' (fun a b : GenericRequestM => a.time + 1000 ≤ b.time) reqs ∧
      (∀ r ∈ reqs, st.nextAccess + 1000 ≤ r.time) ∧
      reqs.map GenericRequestM.processID =
        (List.range walls.length).map
          (fun (i : Nat) => st.processID ++ "-" ++
            toString (st.sequenceIDSuffix + 1 + (i : Int))) ∧
      st2.sequenceIDSuffix = st.sequenceIDSuffix + walls.length ∧
      st.nextAccess ≤ st2.nextAccess := by
  intro walls
  induction walls with
  | nil =>
      intro st st2 reqs h
      simp only [runSignedRequests, Except.ok.injEq, Prod.mk.injEq] at h
      obtain ⟨hst, hreqs⟩ := h
      subst hst
      subst hreqs
      simp
  | cons w ws ih =>
      intro st st2 reqs h
      simp only [runSignedRequests] at h
      cases hs : signedRequest pr st w
          { data := [], path := "", requestIfOnline := true } with
      | error e => rw [hs] at h; cases h
      | ok p =>
          obtain ⟨stA, greq⟩ := p
          rw [hs] at h
          dsimp only at h
          cases hr : runSignedRequests pr stA ws with
          | error e => rw [hr] at h; cases h
          | ok q =>
              obtain ⟨stB, rs⟩ := q
              rw [hr] at h
              dsimp only at h
              simp only [Except.ok.injEq, Prod.mk.injEq] at h
              obtain ⟨hst2, hreqs⟩ := h
              subst hst2
              subst hreqs
              obtain ⟨htime, hstA, hpid⟩ := signedRequest_ok pr st w _ stA greq hs
              obtain ⟨hchain, hge, hmap, hsuf, hna⟩ := ih stA stB rs hr
              have hstep := nextAccessStep_ge st.nextAccess w
              have hAna : stA.nextAccess = nextAccessStep st.nextAccess w := by
                rw [hstA]
              have hAsuf : stA.sequenceIDSuffix = st.sequenceIDSuffix + 1 := by
                rw [hstA]
              have hApid : stA.processID = st.processID := by rw [hstA]
              refine ⟨?_, ?_, ?_, ?_, ?_⟩
              · rw [List.chain'_cons']
                refine ⟨?_, hchain⟩
                intro b hb
                have hbmem : b ∈ rs := List.mem_of_mem_head? hb
                have := hge b hbmem
                rw [hAna] at this
                omega
              · intro r hr2
                rcases List.mem_cons.mp hr2 with h | h
                · subst h; omega
                · have := hge r h
                  rw [hAna] at this
                  omega
              · simp only [List.map_cons, List.length_cons, List.range_succ_eq_map,
                  List.map_map]
                congr 1
                · rw [hpid]
                  congr 2
                  push_cast
                  ring
                · rw [hmap]
                  simp only [hApid, hAsuf]
                  apply List.map_congr_left
                  intro i _
                  simp only [Function.comp]
                  congr 2
                  push_cast
                  ring
              · rw [hsuf, hAsuf]
                simp only [List.length_cons]
                push_cast
                ring
              · rw [hAna] at hna
                omega

/-- Claim C3 witness: the monotonicity theorem applied to the concrete
three-request run exRun. -/
theorem C3_witness :
    List.Chain' (fun a b : GenericRequestM => a.time + 1000 ≤ b.time) exRun.2 ∧
    exRun.2.map GenericRequestM.processID =
      (List.range exWalls.length).map
        (fun (i : Nat) => exConnState.processID ++ "-" ++
          toString (exConnState.sequenceIDSuffix + 1 + (i : Int))) :=
  ⟨(C3_session_monotonic testPrims exWalls exConnState exRun.1 exRun.2 (by rfl)).1,
   (C3_session_monotonic testPrims exWalls exConnState exRun.1 exRun.2
     (by rfl)).2.2.1⟩

/-- Claim C6: in both signedRequest copies, one integer carries through
the whole construction — the envelope data field equals the base64 of the
AES-CBC encryption whose IV is md5 of the decimal rendering of the
envelope time, and both HMAC signatures are computed at exactly that same
time over that same data — so the IV basis, the envelope time and the
HMAC t component agree exactly. -/
theorem C6_time_agreement (pr : CryptoPrims) (st : ConnState)
    (wall wall2 wall3 : Int) (conf : RequestConfig) :
    (∀ st2 greq, signedRequest pr st wall conf = .ok (st2, greq) →
        greq.isEncrypted = true ∧
        greq.data = base64Encode (Encrypt pr
          ⟨st.phoneSecret, md5hash pr (toString greq.time)⟩ conf.data) ∧
        greq.sessionSignature =
          ((newHubSignature st.sessionSecret).Update pr greq.time greq.data).1 ∧
        greq.phoneSignature =
          ((newHubSignature st.phoneSecretRaw).Update pr greq.time greq.data).1) ∧
    (∀ st2 greq, signedRequest008 pr st wall2 wall3 conf = .ok (st2, greq) →
        greq.isEncrypted = true ∧
        greq.data = base64Encode (Encrypt pr
          ⟨st.phoneSecret, md5hash pr (toString greq.time)⟩ conf.data) ∧
        greq.sessionSignature =
          ((newHubSignature st.sessionSecret).Update pr greq.time greq.data).1 ∧
        greq.phoneSignature =
          ((newHubSignature st.phoneSecretRaw).Update pr greq.time greq.data).1) := by
  constructor
  · intro st2 greq h
    simp only [signedRequest] at h
    set na := nextAccessStep st.nextAccess wall with hna
    cases hc : NewEncCipher pr st.phoneSecret na with
    | error e => rw [hc] at h; cases h
    | ok c =>
        rw [hc] at h
        have hcv : c = ⟨st.phoneSecret, md5hash pr (toString na)⟩ := by
          by_cases hv : aesKeyValid st.phoneSecret
          · unfold NewEncCipher at hc
            rw [if_pos hv] at hc
            exact ((Except.ok.injEq _ _).mp hc).symm
          · unfold NewEncCipher at hc
            rw [if_neg hv] at hc
            cases hc
        subst hcv
        simp only [Except.ok.injEq, Prod.mk.injEq] at h
        obtain ⟨hst2, hgreq⟩ := h
        subst hgreq
        exact ⟨rfl, rfl, rfl, rfl⟩
  · intro st2 greq h
    simp only [signedRequest008] at h
    set na := (if wall2 > st.nextAccess then wall2 else st.nextAccess) + 1000
      with hna
    cases hc : NewEncCipher pr st.phoneSecret na with
    | error e => rw [hc] at h; cases h
    | ok c =>
        rw [hc] at h
        have hcv : c = ⟨st.phoneSecret, md5hash pr (toString na)⟩ := by
          by_cases hv : aesKeyValid st.phoneSecret
          · unfold NewEncCipher at hc
            rw [if_pos hv] at hc
            exact ((Except.ok.injEq _ _).mp hc).symm
          · unfold NewEncCipher at hc
            rw [if_neg hv] at hc
            cases hc
        subst hcv
        simp only [Except.ok.injEq, Prod.mk.injEq] at h
        obtain ⟨hst2, hgreq⟩ := h
        subst hgreq
        exact ⟨rfl, rfl, rfl, rfl⟩

/-- Claim C6 witness: the agreement properties evaluated on concrete
requests produced by both signedRequest copies. -/
theorem C6_witness :
    exStep.2.data = base64Encode (Encrypt testPrims
      ⟨exConnState.phoneSecret, md5hash testPrims (toString exStep.2.time)⟩
      exConf.data) ∧
    exStep.2.sessionSignature =
      ((newHubSignature exConnState.sessionSecret).Update testPrims
        exStep.2.time exStep.2.data).1 ∧
    exStep008.2.phoneSignature =
      ((newHubSignature exConnState.phoneSecretRaw).Update testPrims
        exStep008.2.time exStep008.2.data).1 :=
  ⟨((C6_time_agreement testPrims exConnState 0 4200 9000 exConf).1
      exStep.1 exStep.2 (by rfl)).2.1,
   ((C6_time_agreement testPrims exConnState 0 4200 9000 exConf).1
      exStep.1 exStep.2 (by rfl)).2.2.1,
   ((C6_time_agreement testPrims exConnState 0 4200 9000 exConf).2
      exStep008.1 exStep008.2 (by rfl)).2.2.2⟩

/-- Claim C8 witness: the round-trip evaluated with the concrete stand-in
primitives, a 16-byte key and a two-byte plaintext. -/
theorem C8_roundtrip_witness :
    Decrypt testPrims ⟨List.replicate 16 7, md5hash testPrims (toString (1520743556636 : Int))⟩
      (Encrypt testPrims ⟨List.replicate 16 7, md5hash testPrims (toString (1520743556636 : Int))⟩
        [104, 105]) = some [104, 105] :=
  (C8_encrypt_decrypt_roundtrip testPrims (List.replicate 16 7) 1520743556636
    [104, 105]
    (by decide)
    (by decide)
    (fun b hb => by simp [testPrims, hb])
    (fun b hb => by
      have hx : ∀ x : Nat, Nat.xor (Nat.xor x 90) 90 = x :=
        fun x => Nat.xor_cancel_right 90 x
      simp [testPrims, List.map_map, Function.comp_def, hx])).2.2

end DD
